import Mathlib

/-!
Shallow embedding of the attachment staging/commit/rollback logic of
`plugins/attachment-resources/src/components/AttachmentRefInput.svelte`.

The component's mutable script-level variables become fields of
`ComponentState`; each async function becomes a Lean function returning
the updated state together with a trace of external effects (store
operations, file-service calls, draft saves, dispatched events).
Document/blob references are modelled as `Nat` (attachment ids generated
by `generateId` are drawn from a `nextId` counter) and `String` (class
references and blob uuids).  The `attachments` `Map` is an association
list in insertion order, mirroring JavaScript `Map` semantics; the
`Set`s are duplicate-free lists in insertion order.
-/

namespace AttachmentRefInput

/-- Metadata of a DOM `File` object, as read by `createAttachment`. -/
structure FileData where
  name : String
  type : String
  size : Nat
  lastModified : Nat
deriving DecidableEq

/-- An attachment document, with the fields `createAttachment` assembles. -/
structure Attachment where
  _id : Nat
  _class : String
  collection : String
  modifiedOn : Nat
  modifiedBy : String
  space : Nat
  attachedTo : Nat
  attachedToClass : String
  name : String
  file : String
  type : String
  size : Nat
  lastModified : Nat
  metadata : Option Nat
deriving DecidableEq

/-- The class reference constant `attachment.class.Attachment`. -/
def attachmentClassAttachment : String := "attachment:class:Attachment"

/-- Lookup in a JavaScript `Map` (association list, first match). -/
def mapGet : List (Nat × Attachment) → Nat → Option Attachment
  | [], _ => none
  | e :: rest, k => if e.1 = k then some e.2 else mapGet rest k

/-- JavaScript `Map.set`: replace the entry in place if the key is
present, otherwise append at the end. -/
def mapSet : List (Nat × Attachment) → Nat → Attachment → List (Nat × Attachment)
  | [], k, v => [(k, v)]
  | e :: rest, k, v => if e.1 = k then (k, v) :: rest else e :: mapSet rest k v

/-- JavaScript `Map.delete`: remove the entry with the given key. -/
def mapDelete : List (Nat × Attachment) → Nat → List (Nat × Attachment)
  | [], _ => []
  | e :: rest, k => if e.1 = k then rest else e :: mapDelete rest k

/-- JavaScript `Map.size`. -/
def mapSize (m : List (Nat × Attachment)) : Nat := m.length

/-- JavaScript `Map.keys()`. -/
def mapKeys (m : List (Nat × Attachment)) : List Nat := m.map Prod.fst

/-- JavaScript `Set.add` on attachment ids. -/
def setAdd (s : List Nat) (x : Nat) : List Nat :=
  if x ∈ s then s else s ++ [x]

/-- JavaScript `Set.add` on attachment documents. -/
def setAddAtt (s : List Attachment) (a : Attachment) : List Attachment :=
  if a ∈ s then s else s ++ [a]

/-- External effects the component performs, in order of completion. -/
inductive Effect where
  | uploadFileEff (name : String)
  | getFileMetadataEff (uuid : String)
  | setPlatformStatusEff
  | saveDraftEff (key : String) (entries : List (Nat × Attachment))
  | removeDraftEff (key : String)
  | addCollection (space : Nat) (attachedTo : Nat) (attachedToClass : String)
      (collection : String) (doc : Attachment) (docId : Nat)
  | removeCollection (_class : String) (space : Nat) (objectId : Nat)
      (attachedTo : Nat) (attachedToClass : String) (collection : String)
  | deleteFileEff (file : String)
  | dispatchMessage (markup : String) (attachmentsCount : Nat)
  | dispatchUpdate (markup : String) (attachmentsCount : Nat)
deriving DecidableEq

/-- The script-level mutable state of the component. -/
structure ComponentState where
  objectId : Nat
  space : Nat
  _class : String
  shouldSaveDraft : Bool
  saved : Bool
  loading : Bool
  progress : Bool
  attachments : List (Nat × Attachment)
  originalAttachments : List Nat
  newAttachments : List Nat
  removedAttachments : List Attachment
  existingAttachments : List Nat
  draft : Option (List (Nat × Attachment))
  nextId : Nat
deriving DecidableEq

/-- The draft key `objectId + "_attachments"` fixed at initialization. -/
def draftKey (objectId : Nat) : String := toString objectId ++ "_attachments"

/-- The `saveDraft` function: when `shouldSaveDraft`, store the whole
current attachments map in the drafts store under the draft key. -/
def saveDraft (s : ComponentState) : ComponentState × List Effect :=
  if s.shouldSaveDraft then
    ({ s with draft := some s.attachments },
      [Effect.saveDraftEff (draftKey s.objectId) s.attachments])
  else (s, [])

/-- Outcome of the two awaited service calls inside `createAttachment`:
the upload may reject, the metadata call may reject after a successful
upload, or both may succeed. -/
inductive UploadOutcome where
  | uploadFailed
  | metadataFailed (uuid : String)
  | success (uuid : String) (metadata : Option Nat)
deriving DecidableEq

/-- The `createAttachment` function.  On success it stages the file:
a fresh id is generated, an attachment document built from the file and
the component's bindings is put into the attachments map, the id is
added to `newAttachments` and the draft is saved.  On any rejection the
error is caught and reported via `setPlatformStatus (unknownError err)`
with no state change. -/
def createAttachment (s : ComponentState) (file : FileData) (outcome : UploadOutcome) :
    ComponentState × List Effect :=
  match outcome with
  | UploadOutcome.uploadFailed =>
      (s, [Effect.uploadFileEff file.name, Effect.setPlatformStatusEff])
  | UploadOutcome.metadataFailed uuid =>
      (s, [Effect.uploadFileEff file.name, Effect.getFileMetadataEff uuid,
           Effect.setPlatformStatusEff])
  | UploadOutcome.success uuid md =>
      let _id := s.nextId
      let doc : Attachment :=
        { _id := _id
          _class := attachmentClassAttachment
          collection := "attachments"
          modifiedOn := 0
          modifiedBy := ""
          space := s.space
          attachedTo := s.objectId
          attachedToClass := s._class
          name := file.name
          file := uuid
          type := file.type
          size := file.size
          lastModified := file.lastModified
          metadata := md }
      let s1 := { s with
        attachments := mapSet s.attachments _id doc
        newAttachments := setAdd s.newAttachments _id
        nextId := s.nextId + 1 }
      let r := saveDraft s1
      (r.1, [Effect.uploadFileEff file.name, Effect.getFileMetadataEff uuid] ++ r.2)

/-- Semantics of the reactive `existingAttachmentsQuery`: the ids of the
persisted attachments matching the component's `space`, `objectId`,
`_class` and the keys of the current attachments map. -/
def queryExistingAttachments (store : List Attachment) (s : ComponentState) : List Nat :=
  (store.filter (fun a =>
    a._class = attachmentClassAttachment ∧ a.space = s.space ∧
    a.attachedTo = s.objectId ∧ a.attachedToClass = s._class ∧
    a._id ∈ mapKeys s.attachments)).map (fun a => a._id)

/-- The `saveAttachment` function: add the staged document as a new
collection record unless its id is already among `existingAttachments`. -/
def saveAttachment (s : ComponentState) (doc : Attachment) : List Effect :=
  if doc._id ∈ s.existingAttachments then []
  else [Effect.addCollection s.space s.objectId s._class "attachments" doc doc._id]

/-- The `deleteAttachment` function: a persisted original is removed from
the store via `removeCollection`, a merely staged one has its uploaded
blob deleted via `deleteFile`. -/
def deleteAttachment (s : ComponentState) (a : Attachment) : List Effect :=
  if a._id ∈ s.originalAttachments then
    [Effect.removeCollection a._class a.space a._id a.attachedTo a.attachedToClass
      "attachments"]
  else [Effect.deleteFileEff a.file]

/-- The exported `createAttachments` function: set `saved`, then persist
every staged attachment still present in the map via `saveAttachment`
and delete every removed attachment via `deleteAttachment` (the promises
are collected and awaited together via `Promise.all`). -/
def createAttachments (s : ComponentState) : ComponentState × List Effect :=
  let s1 := { s with saved := true }
  let saveEffs := (s1.newAttachments.map (fun p =>
    match mapGet s1.attachments p with
    | some a => saveAttachment s1 a
    | none => [])).flatten
  let delEffs := (s1.removedAttachments.map (fun a => deleteAttachment s1 a)).flatten
  (s1, saveEffs ++ delEffs)

/-- The `onMessage` handler: commit the staged set, then dispatch the
`message` event with the submitted markup and the attachment count. -/
def onMessage (s : ComponentState) (markup : String) : ComponentState × List Effect :=
  let s0 := { s with loading := true }
  let r := createAttachments s0
  let s1 := { r.1 with loading := false }
  (s1, r.2 ++ [Effect.dispatchMessage markup (mapSize s1.attachments)])

/-- The `removeAttachment` function: move the attachment from the map
into `removedAttachments`, commit immediately when drafts are enabled,
then save the draft. -/
def removeAttachment (s : ComponentState) (a : Attachment) : ComponentState × List Effect :=
  let s1 := { s with
    removedAttachments := setAddAtt s.removedAttachments a
    attachments := mapDelete s.attachments a._id }
  let r1 := if s1.shouldSaveDraft then createAttachments s1 else (s1, [])
  let r2 := saveDraft r1.1
  (r2.1, r1.2 ++ r2.2)

/-- The `onDestroy` lifecycle hook: when nothing has been committed,
either roll back every staged attachment (drafts disabled) or commit the
staged set (drafts enabled). -/
def onDestroy (s : ComponentState) : ComponentState × List Effect :=
  let rollback : List Effect :=
    if s.saved = false ∧ s.shouldSaveDraft = false then
      (s.newAttachments.map (fun p =>
        match mapGet s.attachments p with
        | some a => deleteAttachment s a
        | none => [])).flatten
    else []
  if s.saved = false ∧ s.shouldSaveDraft = true then
    let r := createAttachments s
    (r.1, rollback ++ r.2)
  else (s, rollback)

/-- The `updateAttachments` function, run reactively for the bound
`objectId`.  With a stored draft and drafts enabled, the attachments map
is replaced by the draft's entries, all of which become new attachments,
and the original/removed sets are cleared; otherwise a live query of the
attachments of `objectId` (whose result is modelled by `queryRes`)
refreshes `originalAttachments` and the map. -/
def updateAttachments (s : ComponentState) (queryRes : List Attachment) : ComponentState :=
  match s.draft, s.shouldSaveDraft with
  | some d, true =>
      { s with
        attachments := d
        newAttachments := d.map Prod.fst
        originalAttachments := []
        removedAttachments := [] }
  | _, _ =>
      { s with
        originalAttachments := queryRes.map (fun a => a._id)
        attachments := queryRes.map (fun a => (a._id, a)) }

/-- The `fileSelected` handler: set the progress flag, read the file
input's list (each selected file paired with its service outcome), and
stage the files one after another; on a `null` or empty list it returns
early, before the flag is cleared. -/
def fileSelected (s : ComponentState) (list : Option (List (FileData × UploadOutcome))) :
    ComponentState × List Effect :=
  let s0 := { s with progress := true }
  match list with
  | none => (s0, [])
  | some l =>
      if l.length = 0 then (s0, [])
      else
        let r := l.foldl (fun acc fo =>
          let r' := createAttachment acc.1 fo.1 fo.2
          (r'.1, acc.2 ++ r'.2)) (s0, ([] : List Effect))
        ({ r.1 with progress := false }, r.2)

/-- The `fileDrop` handler: like `fileSelected` but over the drag
event's `dataTransfer?.files`, which may be absent. -/
def fileDrop (s : ComponentState) (list : Option (List (FileData × UploadOutcome))) :
    ComponentState × List Effect :=
  let s0 := { s with progress := true }
  match list with
  | none => (s0, [])
  | some l =>
      if l.length = 0 then (s0, [])
      else
        let r := l.foldl (fun acc fo =>
          let r' := createAttachment acc.1 fo.1 fo.2
          (r'.1, acc.2 ++ r'.2)) (s0, ([] : List Effect))
        ({ r.1 with progress := false }, r.2)

/-- The `loadFiles` paste helper: stage every clipboard file in order;
here the progress flag is cleared even when the list is empty. -/
def loadFiles (s : ComponentState) (files : List (FileData × UploadOutcome)) :
    ComponentState × List Effect :=
  let s0 := { s with progress := true }
  let r := files.foldl (fun acc fo =>
    let r' := createAttachment acc.1 fo.1 fo.2
    (r'.1, acc.2 ++ r'.2)) (s0, ([] : List Effect))
  ({ r.1 with progress := false }, r.2)

/-- An item of `evt.clipboardData.items`, of which only `kind` is read. -/
structure ClipItem where
  kind : String
deriving DecidableEq

/-- The parts of a `ClipboardEvent` the component reads: the chain of
`parentElement` links above `evt.target` (nearest parent first, ending
at the document root), the clipboard item kinds and the clipboard files
(`clipboardData` being `null` is modelled by empty lists). -/
structure PasteEventData where
  targetParentChain : List Nat
  items : List ClipItem
  files : List (FileData × UploadOutcome)
deriving DecidableEq

/-- The `while` loop of `pasteAction`: walk the `parentElement` chain of
the event target and record whether `refContainer` is ever reached. -/
def walkAllowed (refContainer : Nat) : List Nat → Bool
  | [] => false
  | t :: rest => if t = refContainer then true else walkAllowed refContainer rest

/-- The `pasteAction` callback: accept the paste only when the target is
below `refContainer` and at least one clipboard item is a file, in which
case `loadFiles` is started; the returned pair is the boolean result
together with the `loadFiles` run when it is initiated. -/
def pasteAction (refContainer : Nat) (s : ComponentState) (evt : PasteEventData) :
    Bool × ComponentState × List Effect :=
  let allowed := walkAllowed refContainer evt.targetParentChain
  if allowed = false then (false, s, [])
  else
    let hasFiles := evt.items.any (fun i => i.kind = "file")
    if hasFiles = false then (false, s, [])
    else
      let r := loadFiles s evt.files
      (true, r.1, r.2)

/-- An asynchronous service or store operation, for the promise-level
model used to analyse sequencing. -/
inductive AsyncOp where
  | upload (name : String)
  | metadata (uuid : String)
  | addCol (docId : Nat)
  | removeCol (docId : Nat)
  | delFile (file : String)
deriving DecidableEq

/-- A promise-level event: an operation is issued (its promise created)
or settles (resolves or rejects). -/
inductive PEvent where
  | issue (op : AsyncOp)
  | settle (op : AsyncOp)
deriving DecidableEq

/-- A trace is sequential when every issued operation settles before the
next operation is issued. -/
def seqTrace : List PEvent → Bool
  | [] => true
  | PEvent.issue o :: PEvent.settle o' :: rest => o = o' ∧ seqTrace rest
  | _ => false

/-- Promise-level trace of one `createAttachment` call: `uploadFile` is
awaited, then `getFileMetadata` is awaited; a rejection also settles its
promise.  The upload is attempted exactly once. -/
def createAttachmentAsync (file : FileData) (outcome : UploadOutcome) : List PEvent :=
  match outcome with
  | UploadOutcome.uploadFailed =>
      [PEvent.issue (AsyncOp.upload file.name), PEvent.settle (AsyncOp.upload file.name)]
  | UploadOutcome.metadataFailed uuid =>
      [PEvent.issue (AsyncOp.upload file.name), PEvent.settle (AsyncOp.upload file.name),
       PEvent.issue (AsyncOp.metadata uuid), PEvent.settle (AsyncOp.metadata uuid)]
  | UploadOutcome.success uuid _ =>
      [PEvent.issue (AsyncOp.upload file.name), PEvent.settle (AsyncOp.upload file.name),
       PEvent.issue (AsyncOp.metadata uuid), PEvent.settle (AsyncOp.metadata uuid)]

/-- Promise-level trace of `fileSelected`'s staging loop: each file is
awaited before the next one is handled. -/
def fileSelectedAsync (files : List (FileData × UploadOutcome)) : List PEvent :=
  (files.map (fun fo => createAttachmentAsync fo.1 fo.2)).flatten

/-- The store and file operations `createAttachments` starts: calling
`saveAttachment` or `deleteAttachment` issues the underlying operation
immediately, and the resulting promises are collected in the `promises`
array without being awaited individually. -/
def createAttachmentsOps (s : ComponentState) : List AsyncOp :=
  (s.newAttachments.map (fun p =>
    match mapGet s.attachments p with
    | some a => if a._id ∈ s.existingAttachments then [] else [AsyncOp.addCol a._id]
    | none => [])).flatten ++
  s.removedAttachments.map (fun a =>
    if a._id ∈ s.originalAttachments then AsyncOp.removeCol a._id
    else AsyncOp.delFile a.file)

/-- Promise-level trace of `createAttachments`: all collected operations
are in flight before `Promise.all` settles any of them. -/
def createAttachmentsAsync (s : ComponentState) : List PEvent :=
  (createAttachmentsOps s).map PEvent.issue ++ (createAttachmentsOps s).map PEvent.settle

/-- One user-visible operation on the component, for reasoning about
whole executions. -/
inductive Action where
  | stage (file : FileData) (outcome : UploadOutcome)
  | unstage (a : Attachment)
  | commit
  | submit (markup : String)
  | selectFiles (list : Option (List (FileData × UploadOutcome)))
  | dropFiles (list : Option (List (FileData × UploadOutcome)))
  | paste (refContainer : Nat) (evt : PasteEventData)
  | refresh (queryRes : List Attachment)
deriving DecidableEq

/-- Run one action on the component state. -/
def runAction (s : ComponentState) : Action → ComponentState
  | Action.stage file outcome => (createAttachment s file outcome).1
  | Action.unstage a => (removeAttachment s a).1
  | Action.commit => (createAttachments s).1
  | Action.submit markup => (onMessage s markup).1
  | Action.selectFiles list => (fileSelected s list).1
  | Action.dropFiles list => (fileDrop s list).1
  | Action.paste refContainer evt => (pasteAction refContainer s evt).2.1
  | Action.refresh queryRes => updateAttachments s queryRes

/-- Run a list of actions from left to right. -/
def runActions (s : ComponentState) (acts : List Action) : ComponentState :=
  acts.foldl runAction s

/-! ### Helper lemmas about the map and set operations -/

theorem mapGet_set_self (m : List (Nat × Attachment)) (k : Nat) (v : Attachment) :
    mapGet (mapSet m k v) k = some v := by
  induction m with
  | nil => simp [mapSet, mapGet]
  | cons e rest ih =>
    by_cases he : e.1 = k
    · simp [mapSet, he, mapGet]
    · simp [mapSet, he, mapGet, ih]

theorem mapGet_set_other (m : List (Nat × Attachment)) (k k' : Nat) (v : Attachment)
    (hk : k' ≠ k) : mapGet (mapSet m k v) k' = mapGet m k' := by
  have hk' : ¬ k = k' := fun h => hk h.symm
  induction m with
  | nil => simp [mapSet, mapGet, hk']
  | cons e rest ih =>
    by_cases he : e.1 = k
    · simp [mapSet, mapGet, he, hk']
    · simp [mapSet, he, mapGet, ih]

theorem mapSet_fresh (m : List (Nat × Attachment)) (k : Nat) (v : Attachment)
    (h : mapGet m k = none) : mapSet m k v = m ++ [(k, v)] := by
  induction m with
  | nil => rfl
  | cons e rest ih =>
    unfold mapGet at h
    by_cases he : e.1 = k
    · simp [he] at h
    · simp only [he, if_false] at h
      simp [mapSet, he, ih h]

theorem mapSize_set_fresh (m : List (Nat × Attachment)) (k : Nat) (v : Attachment)
    (h : mapGet m k = none) : mapSize (mapSet m k v) = mapSize m + 1 := by
  rw [mapSet_fresh m k v h]
  simp [mapSize]

theorem mem_setAdd_self (s : List Nat) (x : Nat) : x ∈ setAdd s x := by
  unfold setAdd
  split <;> simp [*]

theorem mem_setAdd_of_mem (s : List Nat) (x q : Nat) (h : q ∈ s) : q ∈ setAdd s x := by
  unfold setAdd
  split <;> simp [h]

@[simp] theorem saveDraft_attachments (s : ComponentState) :
    (saveDraft s).1.attachments = s.attachments := by
  unfold saveDraft; split <;> rfl

@[simp] theorem saveDraft_newAttachments (s : ComponentState) :
    (saveDraft s).1.newAttachments = s.newAttachments := by
  unfold saveDraft; split <;> rfl

@[simp] theorem saveDraft_saved (s : ComponentState) :
    (saveDraft s).1.saved = s.saved := by
  unfold saveDraft; split <;> rfl

@[simp] theorem saveDraft_objectId (s : ComponentState) :
    (saveDraft s).1.objectId = s.objectId := by
  unfold saveDraft; split <;> rfl

/-! ### C4: staging an upload -/

/-- C4.  Staging an upload: when both `uploadFile` and `getFileMetadata`
succeed, `createAttachment` adds exactly one new entry to the attachments
map under the freshly generated id — its `name`, `type`, `size` and
`lastModified` equal the file's, its `file` field is the uuid returned by
the upload, and its `attachedTo`, `attachedToClass` and `space` equal the
component's `objectId`, `_class` and `space` — and the same id is added to
`newAttachments`. -/
theorem staging_adds_exactly_one (s : ComponentState) (file : FileData) (uuid : String)
    (md : Option Nat) (hfresh : mapGet s.attachments s.nextId = none) :
    mapGet (createAttachment s file (UploadOutcome.success uuid md)).1.attachments s.nextId =
      some { _id := s.nextId, _class := attachmentClassAttachment,
             collection := "attachments", modifiedOn := 0, modifiedBy := "",
             space := s.space, attachedTo := s.objectId, attachedToClass := s._class,
             name := file.name, file := uuid, type := file.type, size := file.size,
             lastModified := file.lastModified, metadata := md } ∧
    (∀ k, k ≠ s.nextId →
      mapGet (createAttachment s file (UploadOutcome.success uuid md)).1.attachments k =
        mapGet s.attachments k) ∧
    mapSize (createAttachment s file (UploadOutcome.success uuid md)).1.attachments =
      mapSize s.attachments + 1 ∧
    s.nextId ∈ (createAttachment s file (UploadOutcome.success uuid md)).1.newAttachments ∧
    (∀ q ∈ s.newAttachments,
      q ∈ (createAttachment s file (UploadOutcome.success uuid md)).1.newAttachments) := by
  refine ⟨?_, ?_, ?_, ?_, ?_⟩
  · simp [createAttachment, mapGet_set_self]
  · intro k hk
    simp [createAttachment, mapGet_set_other _ _ _ _ hk]
  · simp [createAttachment, mapSize_set_fresh _ _ _ hfresh]
  · simp [createAttachment, mem_setAdd_self]
  · intro q hq
    simp [createAttachment, mem_setAdd_of_mem _ _ _ hq]

/-- Witness for C4 at a concrete state and file. -/
theorem staging_adds_exactly_one_witness :
    mapGet
      ({ objectId := 7, space := 3, _class := "task", shouldSaveDraft := false,
         saved := false, loading := false, progress := false, attachments := [],
         originalAttachments := [], newAttachments := [], removedAttachments := [],
         existingAttachments := [], draft := none,
         nextId := 100 } : ComponentState).attachments 100 = none ∧
    mapGet (createAttachment
      { objectId := 7, space := 3, _class := "task", shouldSaveDraft := false,
        saved := false, loading := false, progress := false, attachments := [],
        originalAttachments := [], newAttachments := [], removedAttachments := [],
        existingAttachments := [], draft := none, nextId := 100 }
      { name := "a.txt", type := "text", size := 5, lastModified := 11 }
      (UploadOutcome.success "u1" none)).1.attachments 100 =
      some { _id := 100, _class := attachmentClassAttachment,
             collection := "attachments", modifiedOn := 0, modifiedBy := "",
             space := 3, attachedTo := 7, attachedToClass := "task",
             name := "a.txt", file := "u1", type := "text", size := 5,
             lastModified := 11, metadata := none } :=
  ⟨by decide,
   (staging_adds_exactly_one
      { objectId := 7, space := 3, _class := "task", shouldSaveDraft := false,
        saved := false, loading := false, progress := false, attachments := [],
        originalAttachments := [], newAttachments := [], removedAttachments := [],
        existingAttachments := [], draft := none, nextId := 100 }
      { name := "a.txt", type := "text", size := 5, lastModified := 11 }
      "u1" none (by decide)).1⟩

/-! ### C5: failed staging -/

/-- Recognizer for upload attempts in an effect trace. -/
def isUploadEff : Effect → Bool
  | Effect.uploadFileEff _ => true
  | _ => false

/-- Recognizer for draft saves in an effect trace. -/
def isSaveDraftEff : Effect → Bool
  | Effect.saveDraftEff _ _ => true
  | _ => false

/-- C5.  Try once, log status: when the upload or the metadata retrieval
fails, `createAttachment` catches the error and reports it through
`setPlatformStatus (unknownError err)`, attempts the upload exactly once
(no retry), and leaves the whole component state — in particular the
attachments map, the `newAttachments` set and the saved draft — unchanged,
performing no draft save. -/
theorem failed_staging_reports_and_changes_nothing (s : ComponentState) (file : FileData)
    (outcome : UploadOutcome)
    (hfail : ∀ uuid md, outcome ≠ UploadOutcome.success uuid md) :
    (createAttachment s file outcome).1 = s ∧
    Effect.setPlatformStatusEff ∈ (createAttachment s file outcome).2 ∧
    ((createAttachment s file outcome).2.filter isUploadEff).length = 1 ∧
    (createAttachment s file outcome).2.filter isSaveDraftEff = [] := by
  match outcome with
  | UploadOutcome.uploadFailed =>
      refine ⟨rfl, ?_, ?_, ?_⟩ <;> simp [createAttachment, isUploadEff, isSaveDraftEff]
  | UploadOutcome.metadataFailed uuid =>
      refine ⟨rfl, ?_, ?_, ?_⟩ <;> simp [createAttachment, isUploadEff, isSaveDraftEff]
  | UploadOutcome.success uuid md => exact absurd rfl (hfail uuid md)

/-- A small concrete component state used in witnesses, with drafts
enabled. -/
def wState : ComponentState :=
  { objectId := 7, space := 3, _class := "task", shouldSaveDraft := true,
    saved := false, loading := false, progress := false, attachments := [],
    originalAttachments := [], newAttachments := [], removedAttachments := [],
    existingAttachments := [], draft := none, nextId := 0 }

/-- A concrete file used in witnesses. -/
def wFile : FileData := { name := "b.png", type := "image", size := 9, lastModified := 2 }

/-- Witness for C5: a failed metadata call at a concrete state leaves the
state unchanged and reports the error. -/
theorem failed_staging_witness :
    (∀ uuid md,
      (UploadOutcome.metadataFailed "u9" : UploadOutcome) ≠ UploadOutcome.success uuid md) ∧
    ((createAttachment wState wFile (UploadOutcome.metadataFailed "u9")).1 = wState ∧
      Effect.setPlatformStatusEff ∈
        (createAttachment wState wFile (UploadOutcome.metadataFailed "u9")).2 ∧
      ((createAttachment wState wFile
          (UploadOutcome.metadataFailed "u9")).2.filter isUploadEff).length = 1 ∧
      (createAttachment wState wFile
          (UploadOutcome.metadataFailed "u9")).2.filter isSaveDraftEff = []) :=
  ⟨(fun uuid md h => by cases h),
   failed_staging_reports_and_changes_nothing wState wFile
     (UploadOutcome.metadataFailed "u9") (fun uuid md h => by cases h)⟩

/-! ### C10: empty selection leaves the progress flag set -/

/-- C10.  Empty-selection edge case: `fileSelected` with a `null` or empty
file list, and `fileDrop` with an absent or empty `dataTransfer` list,
return early with the progress flag still `true` — it is set on entry and
never cleared on that path — and the attachments map unchanged. -/
theorem empty_selection_keeps_progress (s : ComponentState) :
    (fileSelected s none).1.progress = true ∧
    (fileSelected s (some [])).1.progress = true ∧
    (fileSelected s none).1.attachments = s.attachments ∧
    (fileSelected s (some [])).1.attachments = s.attachments ∧
    (fileDrop s none).1.progress = true ∧
    (fileDrop s (some [])).1.progress = true ∧
    (fileDrop s none).1.attachments = s.attachments ∧
    (fileDrop s (some [])).1.attachments = s.attachments := by
  refine ⟨?_, ?_, ?_, ?_, ?_, ?_, ?_, ?_⟩ <;> simp [fileSelected, fileDrop]

/-! ### C1, C2, C3: commit, rollback, reconciliation -/

theorem mem_createAttachments_save (s : ComponentState) (p : Nat) (a : Attachment)
    (hp : p ∈ s.newAttachments) (ha : mapGet s.attachments p = some a) :
    ∀ e ∈ saveAttachment s a, e ∈ (createAttachments s).2 := by
  intro e he
  apply List.mem_append.mpr
  left
  apply List.mem_flatten.mpr
  refine ⟨saveAttachment s a, ?_, he⟩
  apply List.mem_map.mpr
  refine ⟨p, hp, ?_⟩
  simp only [ha]
  rfl

theorem mem_createAttachments_delete (s : ComponentState) (r : Attachment)
    (hr : r ∈ s.removedAttachments) :
    ∀ e ∈ deleteAttachment s r, e ∈ (createAttachments s).2 := by
  intro e he
  apply List.mem_append.mpr
  right
  apply List.mem_flatten.mpr
  refine ⟨deleteAttachment s r, ?_, he⟩
  apply List.mem_map.mpr
  exact ⟨r, hr, rfl⟩

/-- C1.  Commit on submit: `onMessage` first commits the staged set —
every effect of `saveAttachment` on each new attachment still present in
the map and every effect of `deleteAttachment` on each removed attachment
lands in the trace — and only after all of them does it dispatch the
`message` event, carrying the submitted markup and the final size of the
attachments map. -/
theorem commit_on_submit (s : ComponentState) (markup : String) :
    ∃ pre, (onMessage s markup).2 =
        pre ++ [Effect.dispatchMessage markup (mapSize s.attachments)] ∧
      (∀ p ∈ s.newAttachments, ∀ a, mapGet s.attachments p = some a →
        ∀ e ∈ saveAttachment s a, e ∈ pre) ∧
      (∀ r ∈ s.removedAttachments, ∀ e ∈ deleteAttachment s r, e ∈ pre) := by
  refine ⟨(createAttachments { s with loading := true }).2, rfl, ?_, ?_⟩
  · intro p hp a ha e he
    exact mem_createAttachments_save { s with loading := true } p a hp ha e he
  · intro r hr e he
    exact mem_createAttachments_delete { s with loading := true } r hr e he

/-- A staged attachment used in the C2 witness. -/
def wAtt5 : Attachment :=
  { _id := 5, _class := attachmentClassAttachment, collection := "attachments",
    modifiedOn := 0, modifiedBy := "", space := 3, attachedTo := 7,
    attachedToClass := "task", name := "c.txt", file := "u5", type := "text",
    size := 1, lastModified := 0, metadata := none }

/-- A concrete state holding `wAtt5` as a staged new attachment, with
drafts disabled. -/
def wState2 : ComponentState :=
  { wState with
    shouldSaveDraft := false
    attachments := [(5, wAtt5)]
    newAttachments := [5] }

/-- Witness for C1: submitting over `wState2` saves the staged attachment
to the store and dispatches the message event afterwards. -/
theorem commit_on_submit_witness :
    ∃ pre, (onMessage wState2 "hello").2 =
        pre ++ [Effect.dispatchMessage "hello" (mapSize wState2.attachments)] ∧
      (∀ p ∈ wState2.newAttachments, ∀ a, mapGet wState2.attachments p = some a →
        ∀ e ∈ saveAttachment wState2 a, e ∈ pre) ∧
      (∀ r ∈ wState2.removedAttachments, ∀ e ∈ deleteAttachment wState2 r, e ∈ pre) :=
  commit_on_submit wState2 "hello"

/-- C2.  Rollback on teardown: when nothing was committed and drafts are
disabled, `onDestroy` rolls back every staged attachment still present in
the map — removing it from the store when it was an original, deleting
its uploaded blob otherwise; when drafts are enabled and nothing was
committed, teardown instead commits the staged set via
`createAttachments`. -/
theorem rollback_on_teardown (s : ComponentState) (hsaved : s.saved = false) :
    (s.shouldSaveDraft = false →
      ∀ p ∈ s.newAttachments, ∀ a, mapGet s.attachments p = some a →
        (if a._id ∈ s.originalAttachments then
          Effect.removeCollection a._class a.space a._id a.attachedTo
            a.attachedToClass "attachments"
        else Effect.deleteFileEff a.file) ∈ (onDestroy s).2) ∧
    (s.shouldSaveDraft = true → (onDestroy s).2 = (createAttachments s).2) := by
  constructor
  · intro hdraft p hp a ha
    have hmem : (if a._id ∈ s.originalAttachments then
        Effect.removeCollection a._class a.space a._id a.attachedTo
          a.attachedToClass "attachments"
      else Effect.deleteFileEff a.file) ∈ deleteAttachment s a := by
      unfold deleteAttachment
      split <;> simp_all
    unfold onDestroy
    simp only [hsaved, hdraft, and_self, and_false, Bool.false_eq_true, if_true, if_false]
    apply List.mem_flatten.mpr
    refine ⟨deleteAttachment s a, ?_, hmem⟩
    apply List.mem_map.mpr
    refine ⟨p, hp, ?_⟩
    simp only [ha]
  · intro hdraft
    unfold onDestroy
    simp [hsaved, hdraft]

/-- Witness for C2: tearing down `wState2` (uncommitted, drafts off)
deletes the uploaded blob of the staged attachment. -/
theorem rollback_on_teardown_witness :
    wState2.saved = false ∧ Effect.deleteFileEff "u5" ∈ (onDestroy wState2).2 :=
  ⟨rfl, by
    have h := (rollback_on_teardown wState2 rfl).1 rfl 5 (by decide) wAtt5 (by decide)
    simpa [wAtt5, wState2, wState] using h⟩

/-- C3.  Reconciliation against the live query: with `existingAttachments`
holding the ids returned by the live query of persisted attachments that
match the current `space`, `objectId`, `_class` and the keys of the
attachments map, `saveAttachment` adds a new collection record if and only
if the staged document's id is not among them, and performs no store
operation when the id is already persisted. -/
theorem reconciliation_live_query (store : List Attachment) (s : ComponentState)
    (doc : Attachment)
    (hlive : s.existingAttachments = queryExistingAttachments store s) :
    ((Effect.addCollection s.space s.objectId s._class "attachments" doc doc._id ∈
        saveAttachment s doc) ↔ doc._id ∉ queryExistingAttachments store s) ∧
    (doc._id ∈ queryExistingAttachments store s → saveAttachment s doc = []) := by
  unfold saveAttachment
  rw [hlive]
  by_cases h : doc._id ∈ queryExistingAttachments store s
  · simp [h]
  · simp [h]

/-- A persisted attachment matching the live query for `wStateQ`. -/
def wAtt6 : Attachment :=
  { wAtt5 with _id := 6, name := "d.txt", file := "u6" }

/-- A concrete state whose `existingAttachments` equals the live-query
result over a one-document store. -/
def wStateQ : ComponentState :=
  { wState with
    shouldSaveDraft := false
    attachments := [(5, wAtt5), (6, wAtt6)]
    existingAttachments := [6] }

/-- Witness for C3: over a store persisting only `wAtt6`, saving the
still-unpersisted `wAtt5` adds a collection record, and saving `wAtt6`
performs nothing. -/
theorem reconciliation_live_query_witness :
    wStateQ.existingAttachments = queryExistingAttachments [wAtt6] wStateQ ∧
    ((Effect.addCollection wStateQ.space wStateQ.objectId wStateQ._class "attachments"
        wAtt5 wAtt5._id ∈ saveAttachment wStateQ wAtt5) ↔
      wAtt5._id ∉ queryExistingAttachments [wAtt6] wStateQ) :=
  ⟨by decide, (reconciliation_live_query [wAtt6] wStateQ wAtt5 (by decide)).1⟩

/-! ### C6: draft staging -/

/-- C6.  Draft staging: with `shouldSaveDraft` on, a successful
`createAttachment` and every `removeAttachment` leave the whole current
attachments map stored as the draft under the key
`objectId + "_attachments"`; and `updateAttachments`, finding a stored
draft, replaces the attachments map by exactly the draft's entries, makes
every draft id a new attachment, and empties `originalAttachments` and
`removedAttachments`. -/
theorem draft_staging (s : ComponentState) (file : FileData) (uuid : String)
    (md : Option Nat) (a : Attachment) (d : List (Nat × Attachment))
    (queryRes : List Attachment) (hdraft : s.shouldSaveDraft = true) :
    ((createAttachment s file (UploadOutcome.success uuid md)).1.draft =
        some (createAttachment s file (UploadOutcome.success uuid md)).1.attachments ∧
      Effect.saveDraftEff (draftKey s.objectId)
          (createAttachment s file (UploadOutcome.success uuid md)).1.attachments ∈
        (createAttachment s file (UploadOutcome.success uuid md)).2) ∧
    ((removeAttachment s a).1.draft = some (removeAttachment s a).1.attachments ∧
      Effect.saveDraftEff (draftKey s.objectId) (removeAttachment s a).1.attachments ∈
        (removeAttachment s a).2) ∧
    (s.draft = some d →
      updateAttachments s queryRes =
        { s with
          attachments := d
          newAttachments := d.map Prod.fst
          originalAttachments := []
          removedAttachments := [] }) := by
  refine ⟨⟨?_, ?_⟩, ⟨?_, ?_⟩, ?_⟩
  · simp [createAttachment, saveDraft, hdraft]
  · simp [createAttachment, saveDraft, hdraft]
  · simp [removeAttachment, saveDraft, createAttachments, hdraft]
  · simp [removeAttachment, saveDraft, createAttachments, hdraft]
  · intro hd
    simp [updateAttachments, hd, hdraft]

/-- A concrete drafts-enabled state with a stored draft, for the C6
witness. -/
def wStateD : ComponentState :=
  { wState with draft := some [(5, wAtt5)] }

/-- Witness for C6 at `wStateD`: the draft tracks the map after staging
and unstaging, and initialization restores the stored draft. -/
theorem draft_staging_witness :
    wStateD.shouldSaveDraft = true ∧
    (((createAttachment wStateD wFile (UploadOutcome.success "u1" none)).1.draft =
        some (createAttachment wStateD wFile (UploadOutcome.success "u1" none)).1.attachments ∧
      Effect.saveDraftEff (draftKey wStateD.objectId)
          (createAttachment wStateD wFile (UploadOutcome.success "u1" none)).1.attachments ∈
        (createAttachment wStateD wFile (UploadOutcome.success "u1" none)).2) ∧
    ((removeAttachment wStateD wAtt5).1.draft =
        some (removeAttachment wStateD wAtt5).1.attachments ∧
      Effect.saveDraftEff (draftKey wStateD.objectId)
          (removeAttachment wStateD wAtt5).1.attachments ∈
        (removeAttachment wStateD wAtt5).2) ∧
    (wStateD.draft = some [(5, wAtt5)] →
      updateAttachments wStateD [] =
        { wStateD with
          attachments := [(5, wAtt5)]
          newAttachments := [(5, wAtt5)].map Prod.fst
          originalAttachments := []
          removedAttachments := [] })) :=
  ⟨rfl, draft_staging wStateD wFile "u1" none wAtt5 [(5, wAtt5)] [] rfl⟩

/-! ### C9: paste gating -/

theorem walkAllowed_iff_mem (r : Nat) (chain : List Nat) :
    walkAllowed r chain = true ↔ r ∈ chain := by
  induction chain with
  | nil => simp [walkAllowed]
  | cons t rest ih =>
    by_cases h : t = r
    · simp [walkAllowed, h]
    · have h' : ¬ r = t := fun hh => h hh.symm
      simp [walkAllowed, h, ih, h']

/-- C9.  Paste gating: `pasteAction` returns `true` and starts
`loadFiles` exactly when the event target is a strict descendant of the
container (the container appears among the target's `parentElement`
chain) and the clipboard holds at least one item of kind `file`; in every
other case it returns `false`, leaves the state alone and performs no
effect. -/
theorem paste_gating (refContainer : Nat) (s : ComponentState) (evt : PasteEventData) :
    ((pasteAction refContainer s evt).1 = true ↔
      (refContainer ∈ evt.targetParentChain ∧ ∃ i ∈ evt.items, i.kind = "file")) ∧
    ((pasteAction refContainer s evt).1 = true →
      (pasteAction refContainer s evt).2 = loadFiles s evt.files) ∧
    ((pasteAction refContainer s evt).1 = false →
      (pasteAction refContainer s evt).2.1 = s ∧
        (pasteAction refContainer s evt).2.2 = ([] : List Effect)) := by
  by_cases hA : walkAllowed refContainer evt.targetParentChain = true
  · by_cases hF : evt.items.any (fun i => i.kind = "file") = true
    · have hres : pasteAction refContainer s evt =
          (true, (loadFiles s evt.files).1, (loadFiles s evt.files).2) := by
        simp only [pasteAction]
        rw [hA, hF]
        simp
      rw [hres]
      refine ⟨?_, ?_, ?_⟩
      · constructor
        · intro _
          refine ⟨(walkAllowed_iff_mem _ _).mp hA, ?_⟩
          simpa using hF
        · intro _
          rfl
      · intro _
        rfl
      · intro h
        exact absurd h (by simp)
    · have hF' : evt.items.any (fun i => i.kind = "file") = false := by
        simpa using hF
      have hres : pasteAction refContainer s evt = (false, s, []) := by
        simp only [pasteAction]
        rw [hA, hF']
        simp
      rw [hres]
      refine ⟨?_, ?_, ?_⟩
      · constructor
        · intro h
          exact absurd h (by simp)
        · rintro ⟨-, i, hi, hk⟩
          have hany : evt.items.any (fun i => i.kind = "file") = true :=
            List.any_eq_true.mpr ⟨i, hi, by simpa using hk⟩
          exact absurd hany hF
      · intro h
        exact absurd h (by simp)
      · intro _
        exact ⟨rfl, rfl⟩
  · have hA' : walkAllowed refContainer evt.targetParentChain = false := by
      simpa using hA
    have hres : pasteAction refContainer s evt = (false, s, []) := by
      simp only [pasteAction]
      rw [hA']
      simp
    rw [hres]
    refine ⟨?_, ?_, ?_⟩
    · constructor
      · intro h
        exact absurd h (by simp)
      · rintro ⟨hmem, -⟩
        exact absurd ((walkAllowed_iff_mem _ _).mpr hmem) hA
    · intro h
      exact absurd h (by simp)
    · intro _
      exact ⟨rfl, rfl⟩

/-- A clipboard event whose target sits inside the container and which
carries one file item, for the C9 witness. -/
def wEvt : PasteEventData :=
  { targetParentChain := [2, 1, 0], items := [{ kind := "file" }, { kind := "string" }],
    files := [] }

/-- Witness for C9: pasting a file inside container `1` is accepted. -/
theorem paste_gating_witness :
    ((pasteAction 1 wState wEvt).1 = true ↔
      (1 ∈ wEvt.targetParentChain ∧ ∃ i ∈ wEvt.items, i.kind = "file")) ∧
    ((pasteAction 1 wState wEvt).1 = true →
      (pasteAction 1 wState wEvt).2 = loadFiles wState wEvt.files) :=
  ⟨(paste_gating 1 wState wEvt).1, (paste_gating 1 wState wEvt).2.1⟩

/-! ### C7: promise sequencing -/

/-- State with two staged attachments awaiting commit, neither persisted
yet. -/
def cState7 : ComponentState :=
  { wState with
    shouldSaveDraft := false
    attachments := [(5, wAtt5), (6, wAtt6)]
    newAttachments := [5, 6] }

/-- C7 counterexample: committing two staged attachments puts both
`addCollection` operations in flight before either settles — the promise
trace of `createAttachments` is a `Promise.all` batch, so the component
does issue two store operations concurrently. -/
theorem commit_batch_not_sequential :
    createAttachmentsAsync cState7 =
      [PEvent.issue (AsyncOp.addCol 5), PEvent.issue (AsyncOp.addCol 6),
       PEvent.settle (AsyncOp.addCol 5), PEvent.settle (AsyncOp.addCol 6)] ∧
    seqTrace (createAttachmentsAsync cState7) = false := by
  constructor <;> decide

theorem seqTrace_issue_issue (a b : AsyncOp) (t : List PEvent) :
    seqTrace (PEvent.issue a :: PEvent.issue b :: t) = false := rfl

/-- C7 amended.  The staging loops do await their service calls one at a
time — the promise trace of `fileSelected` is sequential for every file
list — but `createAttachments` commits the staged set as one concurrent
`Promise.all` batch: whenever at least two store or file operations are
to be performed, its promise trace is not sequential. -/
theorem staging_sequential_commit_batch (files : List (FileData × UploadOutcome))
    (s : ComponentState) (h2 : 2 ≤ (createAttachmentsOps s).length) :
    seqTrace (fileSelectedAsync files) = true ∧
    seqTrace (createAttachmentsAsync s) = false := by
  constructor
  · induction files with
    | nil => rfl
    | cons fo rest ih =>
      have hsplit : fileSelectedAsync (fo :: rest) =
          createAttachmentAsync fo.1 fo.2 ++ fileSelectedAsync rest := by
        simp [fileSelectedAsync]
      rw [hsplit]
      cases ho : fo.2 <;> simp [createAttachmentAsync, seqTrace, ih]
  · match hops : createAttachmentsOps s with
    | [] => rw [hops] at h2; exact absurd h2 (by simp)
    | [a] => rw [hops] at h2; exact absurd h2 (by simp)
    | a :: b :: t =>
        unfold createAttachmentsAsync
        rw [hops]
        exact seqTrace_issue_issue a b _

/-- Witness for the amended C7: one selected file is staged sequentially
while the two-element commit of `cState7` is not sequential. -/
theorem staging_sequential_commit_batch_witness :
    2 ≤ (createAttachmentsOps cState7).length ∧
    (seqTrace (fileSelectedAsync [(wFile, UploadOutcome.success "u1" none)]) = true ∧
      seqTrace (createAttachmentsAsync cState7) = false) :=
  ⟨by decide,
   staging_sequential_commit_batch [(wFile, UploadOutcome.success "u1" none)] cState7
     (by decide)⟩

/-! ### C8: teardown is a no-op after commit -/

@[simp] theorem createAttachment_saved (s : ComponentState) (f : FileData)
    (o : UploadOutcome) : (createAttachment s f o).1.saved = s.saved := by
  cases o <;> simp [createAttachment]

theorem removeAttachment_saved (s : ComponentState) (a : Attachment)
    (h : s.saved = true) : (removeAttachment s a).1.saved = true := by
  unfold removeAttachment
  by_cases hd : s.shouldSaveDraft <;> simp [hd, createAttachments, h]

theorem foldl_stage_saved (l : List (FileData × UploadOutcome)) :
    ∀ (s : ComponentState) (tr : List Effect),
      ((l.foldl (fun acc fo =>
        let r' := createAttachment acc.1 fo.1 fo.2
        (r'.1, acc.2 ++ r'.2)) (s, tr)).1).saved = s.saved := by
  induction l with
  | nil =>
    intro s tr
    rfl
  | cons fo rest ih =>
    intro s tr
    simp only [List.foldl_cons]
    rw [ih]
    simp

theorem fileSelected_saved (s : ComponentState)
    (list : Option (List (FileData × UploadOutcome))) :
    (fileSelected s list).1.saved = s.saved := by
  unfold fileSelected
  cases list with
  | none => rfl
  | some l =>
    by_cases h : l.length = 0
    · simp [h]
    · simp only [h, if_false]
      exact foldl_stage_saved l _ _

theorem fileDrop_saved (s : ComponentState)
    (list : Option (List (FileData × UploadOutcome))) :
    (fileDrop s list).1.saved = s.saved := by
  unfold fileDrop
  cases list with
  | none => rfl
  | some l =>
    by_cases h : l.length = 0
    · simp [h]
    · simp only [h, if_false]
      exact foldl_stage_saved l _ _

theorem loadFiles_saved (s : ComponentState) (files : List (FileData × UploadOutcome)) :
    (loadFiles s files).1.saved = s.saved := by
  unfold loadFiles
  exact foldl_stage_saved files _ _

theorem pasteAction_saved (refContainer : Nat) (s : ComponentState)
    (evt : PasteEventData) : (pasteAction refContainer s evt).2.1.saved = s.saved := by
  unfold pasteAction
  by_cases hA : (walkAllowed refContainer evt.targetParentChain = false)
  · simp [hA]
  · by_cases hF : (evt.items.any (fun i => i.kind = "file") = false)
    · simp [hA, hF]
    · simp [hA, hF, loadFiles_saved]

theorem updateAttachments_saved (s : ComponentState) (queryRes : List Attachment) :
    (updateAttachments s queryRes).saved = s.saved := by
  unfold updateAttachments
  split <;> rfl

theorem runAction_saved (s : ComponentState) (act : Action) (h : s.saved = true) :
    (runAction s act).saved = true := by
  cases act with
  | stage f o => simpa [runAction] using h
  | unstage a => exact removeAttachment_saved s a h
  | commit => rfl
  | submit markup => rfl
  | selectFiles list => rw [runAction, fileSelected_saved]; exact h
  | dropFiles list => rw [runAction, fileDrop_saved]; exact h
  | paste refContainer evt => rw [runAction, pasteAction_saved]; exact h
  | refresh queryRes => rw [runAction, updateAttachments_saved]; exact h

theorem runActions_saved (s : ComponentState) (acts : List Action) (h : s.saved = true) :
    (runActions s acts).saved = true := by
  induction acts generalizing s with
  | nil => exact h
  | cons a rest ih =>
    simp only [runActions, List.foldl_cons]
    exact ih _ (runAction_saved s a h)

theorem onDestroy_of_saved (s : ComponentState) (h : s.saved = true) :
    onDestroy s = (s, []) := by
  unfold onDestroy
  simp [h]

/-- C8.  Teardown is a no-op after commit: in any execution that runs
`createAttachments` at some point (which sets `saved`), destroying the
component afterwards performs no store operation and no file deletion,
and leaves the component state — in particular the attachments map —
untouched. -/
theorem teardown_noop_after_commit (s : ComponentState) (pre post : List Action) :
    (runActions (runAction (runActions s pre) Action.commit) post).saved = true ∧
    onDestroy (runActions (runAction (runActions s pre) Action.commit) post) =
      (runActions (runAction (runActions s pre) Action.commit) post, []) := by
  have h1 : (runAction (runActions s pre) Action.commit).saved = true := rfl
  have h2 : (runActions (runAction (runActions s pre) Action.commit) post).saved = true :=
    runActions_saved _ post h1
  exact ⟨h2, onDestroy_of_saved _ h2⟩

end AttachmentRefInput
